import Mathlib

/-
Formal model of the agent program in `mcp_openai_qwen_agent.py`.

The program orchestrates a conversation between an LLM completion service
(OpenAI-compatible chat API) and an external MCP tool-execution service.
We embed the pure orchestration logic shallowly:

* the completion service is a parameter `complete : ChatRequest → CompletionResponse`
  (the code `await client.chat.completions.create(...)`);
* JSON argument parsing (`json.loads(tool_call.function.arguments)`) is a
  parameter `parseArgs : String → Option String` returning the parsed payload
  as an opaque value, `none` meaning a decode failure;
* each catalog entry's `callable` (built by `MCPClient.call_tool`) is a
  function `String → Except String String` from the parsed arguments to the
  textual tool result, `Except.error` meaning the awaited call raised;
* the Python `tools` dict (insertion ordered, unique keys) is an association
  list `List (String × ToolEntry)`; `dictLookup` models `tools[name]`, and
  Python's `KeyError` on a missing name is the `AgentError.keyError` outcome;
* `agent_loop` returns, besides the answer, the transcript as left at return
  or raise time (Python mutates the caller's list in place, so appends made
  before an exception survive it), the list of completion-service requests
  issued in order, and the list of tool invocations performed in order.
-/

namespace Agent

/-- The model identifier string, `MODEL_ID` in the source. -/
def MODEL_ID : String := "qwen2.5-coder:14b-instruct-q4_K_M"

/-- The system prompt template, `SYSTEM_PROMPT` in the source. `{tools}` is
the interpolation slot filled by `str.format`. -/
def SYSTEM_PROMPT : String := "You are a helpful assistant capable of accessing external functions and engaging in casual chat. Use the responses from these function calls to provide accurate and informative answers. The answers should be natural and hide the fact that you are using tools to access real-time information. Guide the user about available tools and their capabilities. Always utilize tools to access real-time information when required. Engage in a friendly manner to enhance the chat experience.\n\n# Tools\n\n{tools}\n\n# Notes \n\n- Ensure responses are based on the latest information available from function calls.\n- Maintain an engaging, supportive, and friendly tone throughout the dialogue.\n- Always highlight the potential of available tools to assist users comprehensively."

/-- The `function` part of a tool call, `tool_call.function` in the source:
a tool name and the serialized arguments payload. -/
structure ToolCallFunction where
  name : String
  arguments : String
deriving Repr, DecidableEq

/-- One tool-invocation request emitted by the completion service,
`tool_call` in the source. -/
structure ToolCall where
  id : String
  function : ToolCallFunction
deriving Repr, DecidableEq

/-- One transcript entry, the message dicts the source appends to `messages`.
Absent dict keys are `none`. -/
structure Message where
  role : String
  content : Option String
  tool_calls : Option (List ToolCall)
  tool_call_id : Option String
  name : Option String
deriving Repr, DecidableEq

/-- The `function` part of a tool schema fragment. -/
structure FunctionSchema where
  name : String
  description : String
  parameters : String
deriving Repr, DecidableEq

/-- A tool schema fragment of shape
`{type: "function", function: {name, description, parameters}}`. -/
structure ToolSchema where
  type : String
  function : FunctionSchema
deriving Repr, DecidableEq

/-- One entry of the `tools` dict built in `main`: the tool's name, the
bound callable from `MCPClient.call_tool`, and the schema fragment. -/
structure ToolEntry where
  name : String
  callable : String → Except String String
  schema : ToolSchema

/-- What the orchestration loop reads from one completion-service response:
`choices[0].message.content`, `choices[0].message.tool_calls`, and
`choices[0].finish_reason`. -/
structure CompletionResponse where
  content : Option String
  tool_calls : Option (List ToolCall)
  finish_reason : String
deriving Repr, DecidableEq

/-- One call to `client.chat.completions.create`, recording the keyword
arguments the source passes; `none` for `tools`, `max_tokens` and
`temperature` means the keyword was not passed. -/
structure ChatRequest where
  model : String
  messages : List Message
  tools : Option (List ToolSchema)
  max_tokens : Option Nat
  temperature : Option Nat
deriving Repr, DecidableEq

/-- A Python exception escaping `agent_loop`. -/
inductive AgentError where
  /-- `json.loads` failed on the arguments payload (a `ValueError`). -/
  | jsonDecodeError (raw : String)
  /-- `tools[name]` raised `KeyError`: the requested tool is not in the catalog. -/
  | keyError (name : String)
  /-- the tool callable raised while executing. -/
  | toolCallError (name : String) (msg : String)
  /-- `for tool_call in None` raised `TypeError` (finish_reason was
  "tool_calls" but the `tool_calls` field was absent). -/
  | noneNotIterable
  /-- `raise ValueError(f"Unknown stop reason: ...")`. -/
  | unknownStopReason (reason : String)
deriving Repr, DecidableEq

/-- The observable result of one `agent_loop` run: the transcript as left at
return (or raise) time, the completion-service requests issued in order, the
tool invocations `(name, parsed arguments)` performed in order, and the
outcome (the returned answer text, or the exception raised). -/
structure AgentResult where
  messages : List Message
  calls : List ChatRequest
  invocations : List (String × String)
  outcome : Except AgentError (Option String)

/-- Python dict lookup `d[k]` over the association-list model of a dict. -/
def dictLookup {α : Type} (k : String) : List (String × α) → Option α
  | [] => none
  | p :: rest => if k = p.1 then some p.2 else dictLookup k rest

/-- Model of `json.dumps` applied to the textual tool result (string
escaping; control characters other than the common ones are kept as-is,
which is irrelevant here since no claim inspects the escaped text). -/
def escapeChar (c : Char) : String :=
  if c = '\\' then "\\\\"
  else if c = '"' then "\\\""
  else if c = '\n' then "\\n"
  else if c = '\t' then "\\t"
  else String.singleton c

/-- Model of `json.dumps` on a string value. -/
def jsonDumps (s : String) : String :=
  "\"" ++ String.join (s.data.map escapeChar) ++ "\""

/-- The enumeration line for one tool in the system prompt:
`f"{t['name']}: {t['schema']['function']['description']}"`. -/
def toolLine (t : ToolEntry) : String :=
  t.name ++ ": " ++ t.schema.function.description

/-- The interpolated tool enumeration:
`"\n- ".join([... for t in tools.values()])`. -/
def toolsEnumeration (tools : List (String × ToolEntry)) : String :=
  String.intercalate "\n- " ((tools.map Prod.snd).map toolLine)

/-- The system Message seeded when no transcript is supplied. -/
def systemMessage (tools : List (String × ToolEntry)) : Message :=
  ⟨"system", some (SYSTEM_PROMPT.replace "{tools}" (toolsEnumeration tools)),
   none, none, none⟩

/-- The user Message appended for the query. -/
def userMessage (query : String) : Message :=
  ⟨"user", some query, none, none, none⟩

/-- The assistant Message appended on the tool path, carrying the first
response's content and its tool_calls field. -/
def assistantToolMessage (content : Option String)
    (tcs : Option (List ToolCall)) : Message :=
  ⟨"assistant", content, tcs, none, none⟩

/-- The tool Message appended after one tool invocation. -/
def toolMessage (tc : ToolCall) (result : String) : Message :=
  ⟨"tool", some (jsonDumps result), none, some tc.id, some tc.function.name⟩

/-- The final assistant Message appended before returning. -/
def finalAssistantMessage (content : Option String) : Message :=
  ⟨"assistant", content, none, none, none⟩

/-- The transcript right before the first completion-service call: the
supplied transcript (or the seeded system Message) with the user query
appended. -/
def initialTranscript (query : String) (tools : List (String × ToolEntry))
    (messages : Option (List Message)) : List Message :=
  (match messages with
   | none => [systemMessage tools]
   | some ms => ms) ++ [userMessage query]

/-- The first `client.chat.completions.create` call: full transcript, the
schema fragments when the catalog is non-empty, `max_tokens=4096`,
`temperature=0`. -/
def firstRequest (query : String) (tools : List (String × ToolEntry))
    (messages : Option (List Message)) : ChatRequest :=
  ⟨MODEL_ID, initialTranscript query tools messages,
   if 0 < tools.length
     then some ((tools.map Prod.snd).map ToolEntry.schema)
     else none,
   some 4096, some 0⟩

/-- The follow-up `client.chat.completions.create` call after tool
invocations: only `model` and `messages` are passed. -/
def followupRequest (ms : List Message) : ChatRequest :=
  ⟨MODEL_ID, ms, none, none, none⟩

/-- The `for tool_call in assistant_message.tool_calls` loop: for each tool
call in order, parse its arguments, look the name up in the catalog, run
the callable, and append one tool Message. Returns the transcript and the
invocation log as left when the loop finishes or an exception is raised,
plus the exception if any. -/
def processToolCalls (parseArgs : String → Option String)
    (tools : List (String × ToolEntry)) :
    List ToolCall → List Message → List (String × String) →
    List Message × List (String × String) × Option AgentError
  | [], ms, invs => (ms, invs, none)
  | tc :: rest, ms, invs =>
    match parseArgs tc.function.arguments with
    | none => (ms, invs, some (AgentError.jsonDecodeError tc.function.arguments))
    | some args =>
      match dictLookup tc.function.name tools with
      | none => (ms, invs, some (AgentError.keyError tc.function.name))
      | some entry =>
        match entry.callable args with
        | Except.error e =>
          (ms, invs ++ [(tc.function.name, args)],
           some (AgentError.toolCallError tc.function.name e))
        | Except.ok result =>
          processToolCalls parseArgs tools rest
            (ms ++ [toolMessage tc result])
            (invs ++ [(tc.function.name, args)])

/-- The orchestration loop `agent_loop(query, tools, messages)`. The
completion service and the JSON argument parser are parameters. -/
def agent_loop (complete : ChatRequest → CompletionResponse)
    (parseArgs : String → Option String)
    (query : String) (tools : List (String × ToolEntry))
    (messages : Option (List Message)) : AgentResult :=
  let req1 := firstRequest query tools messages
  let first_response := complete req1
  let ms1 := initialTranscript query tools messages
  match first_response.tool_calls with
  | some tcs =>
    -- stop_reason = "tool_calls": append the assistant message, run the
    -- tool loop, then issue the follow-up completion call.
    let ms2 := ms1 ++ [assistantToolMessage first_response.content (some tcs)]
    match processToolCalls parseArgs tools tcs ms2 [] with
    | (ms3, invs, some e) =>
      ⟨ms3, [req1], invs, Except.error e⟩
    | (ms3, invs, none) =>
      let req2 := followupRequest ms3
      let new_response := complete req2
      ⟨ms3 ++ [finalAssistantMessage new_response.content],
       [req1, req2], invs, Except.ok new_response.content⟩
  | none =>
    if first_response.finish_reason = "tool_calls" then
      -- stop_reason = "tool_calls" with tool_calls = None: the source
      -- appends the assistant message (tool_calls key None) and then
      -- raises TypeError iterating None.
      ⟨ms1 ++ [assistantToolMessage first_response.content none],
       [req1], [], Except.error AgentError.noneNotIterable⟩
    else if first_response.finish_reason = "stop" then
      -- DIRECT_ANSWER: reuse the first response, append it, return.
      ⟨ms1 ++ [finalAssistantMessage first_response.content],
       [req1], [], Except.ok first_response.content⟩
    else
      ⟨ms1, [req1], [], Except.error
        (AgentError.unknownStopReason first_response.finish_reason)⟩

/-- A raw operation descriptor advertised by the MCP server (name,
description, input schema), as consumed by `main`. -/
structure RawTool where
  name : String
  description : String
  inputSchema : String
deriving Repr, DecidableEq

/-- The `tools` dict comprehension in `main`: every advertised operation
except `list_tables` is mapped to its entry, whose callable is
`mcp_client.call_tool(tool.name)` (here the parameter `call_tool` applied
to the name) and whose schema fragment is
`{type: "function", function: {name, description, parameters}}`. -/
def build_tools (call_tool : String → String → Except String String)
    (mcp_tools : List RawTool) : List (String × ToolEntry) :=
  (mcp_tools.filter (fun t => t.name != "list_tables")).map
    (fun t => (t.name,
      ⟨t.name, call_tool t.name,
       ⟨"function", ⟨t.name, t.description, t.inputSchema⟩⟩⟩))

/-- The established MCP session: its `call_tool` returns the response's
`content` list (each element's `.text`), and `list_tools` the advertised
operations. -/
structure MCPSession where
  call_tool : String → String → List String
  tools : List RawTool

/-- The MCP client: `session` is `None` until `connect` has run. -/
structure MCPClient where
  session : Option MCPSession

/-- Model of `MCPClient.get_available_tools`: raises
`RuntimeError("Not connected to MCP server")` when no session is
established, else returns `session.list_tools().tools`. -/
def MCPClient.get_available_tools (c : MCPClient) :
    Except String (List RawTool) :=
  match c.session with
  | none => Except.error "Not connected to MCP server"
  | some s => Except.ok s.tools

/-- Model of `MCPClient.call_tool`: raises
`RuntimeError("Not connected to MCP server")` when no session is
established, else returns the callable that forwards the arguments to
`session.call_tool` and extracts `response.content[0].text` (an
`IndexError` when the content list is empty). -/
def MCPClient.call_tool (c : MCPClient) (tool_name : String) :
    Except String (String → Except String String) :=
  match c.session with
  | none => Except.error "Not connected to MCP server"
  | some s => Except.ok (fun kwargs =>
      match (s.call_tool tool_name kwargs).head? with
      | some text => Except.ok text
      | none => Except.error "list index out of range")

/-- The tool call `tc` can be fully processed: its arguments parse, its
name is in the catalog, and the callable returns a result. -/
def callOk (parseArgs : String → Option String)
    (tools : List (String × ToolEntry)) (tc : ToolCall) : Prop :=
  ∃ args entry result,
    parseArgs tc.function.arguments = some args ∧
    dictLookup tc.function.name tools = some entry ∧
    entry.callable args = Except.ok result

/-- The parsed arguments of a tool call (defaulting when parsing fails). -/
def argsD (parseArgs : String → Option String) (tc : ToolCall) : String :=
  (parseArgs tc.function.arguments).getD ""

/-- The textual result of a tool call's invocation (defaulting on any
failure). -/
def toolResultD (parseArgs : String → Option String)
    (tools : List (String × ToolEntry)) (tc : ToolCall) : String :=
  match parseArgs tc.function.arguments with
  | none => ""
  | some args =>
    match dictLookup tc.function.name tools with
    | none => ""
    | some entry => ((entry.callable args).toOption).getD ""

/-- The tool Message produced for one tool call. -/
def toolMsgD (parseArgs : String → Option String)
    (tools : List (String × ToolEntry)) (tc : ToolCall) : Message :=
  toolMessage tc (toolResultD parseArgs tools tc)

/-- The invocation-log entry produced for one tool call. -/
def invD (parseArgs : String → Option String) (tc : ToolCall) :
    String × String :=
  (tc.function.name, argsD parseArgs tc)

/-- The transcript after the assistant Message and all tool Messages of a
fully successful tool round, i.e. the transcript the follow-up
completion-service call is issued with. -/
def extendedTranscript (complete : ChatRequest → CompletionResponse)
    (parseArgs : String → Option String) (query : String)
    (tools : List (String × ToolEntry)) (messages : Option (List Message))
    (tcs : List ToolCall) : List Message :=
  initialTranscript query tools messages ++
    assistantToolMessage (complete (firstRequest query tools messages)).content
      (some tcs) ::
    tcs.map (toolMsgD parseArgs tools)

/-- Sample schema fragment for a database-insert tool. -/
def wSchema : ToolSchema := ⟨"function", ⟨"add_row", "insert a row", "object"⟩⟩

/-- Sample catalog entry whose callable always succeeds. -/
def wEntry : ToolEntry := ⟨"add_row", fun _ => Except.ok "1 row inserted", wSchema⟩

/-- Sample one-entry catalog. -/
def wTools : List (String × ToolEntry) := [("add_row", wEntry)]

/-- Sample ToolCall requesting the catalogued tool. -/
def wTc : ToolCall := ⟨"call-1", ⟨"add_row", "rowargs"⟩⟩

/-- Sample ToolCall requesting a name absent from the catalog. -/
def wTcBad : ToolCall := ⟨"call-2", ⟨"drop_table", "dropargs"⟩⟩

/-- Sample completion service: the first call (which carries `max_tokens`)
requests one tool, the follow-up call (no `max_tokens`) answers directly. -/
def wCompleteTools : ChatRequest → CompletionResponse := fun req =>
  match req.max_tokens with
  | some _ => ⟨some "", some [wTc], "tool_calls"⟩
  | none => ⟨some "done", none, "stop"⟩

/-- Sample completion service whose first call requests one known tool and
then one unknown tool. -/
def wCompleteBad : ChatRequest → CompletionResponse := fun req =>
  match req.max_tokens with
  | some _ => ⟨some "", some [wTc, wTcBad], "tool_calls"⟩
  | none => ⟨some "done", none, "stop"⟩

/-- Sample completion service that always answers directly. -/
def wCompleteStop : ChatRequest → CompletionResponse :=
  fun _ => ⟨some "hello there", none, "stop"⟩

/-- Sample argument parser: every payload parses to itself. -/
def wParse : String → Option String := fun s => some s

/-- Sample raw operation list containing the denylisted name. -/
def wRaw1 : RawTool := ⟨"list_tables", "list tables", "schemaA"⟩

/-- Sample raw operation kept by the catalog build. -/
def wRaw2 : RawTool := ⟨"add_row", "insert a row", "schemaB"⟩

/-- Sample advertised operation list. -/
def wRawTools : List RawTool := [wRaw1, wRaw2]

/-- Sample tool-invocation capability factory. -/
def wCallTool : String → String → Except String String :=
  fun _ _ => Except.ok "ok"

theorem processToolCalls_all_ok (parseArgs : String → Option String)
    (tools : List (String × ToolEntry)) :
    ∀ (tcs : List ToolCall) (ms : List Message) (invs : List (String × String)),
    (∀ tc ∈ tcs, callOk parseArgs tools tc) →
    processToolCalls parseArgs tools tcs ms invs =
      (ms ++ tcs.map (toolMsgD parseArgs tools),
       invs ++ tcs.map (invD parseArgs), none) := by
  intro tcs
  induction tcs with
  | nil => intro ms invs _; simp [processToolCalls]
  | cons tc rest ih =>
    intro ms invs h
    obtain ⟨args, entry, result, hp, hl, hc⟩ := h tc (List.mem_cons_self _ _)
    have hrest : ∀ x ∈ rest, callOk parseArgs tools x :=
      fun x hx => h x (List.mem_cons_of_mem _ hx)
    have h1 : toolMsgD parseArgs tools tc = toolMessage tc result := by
      simp [toolMsgD, toolResultD, hp, hl, hc, Except.toOption]
    have h2 : invD parseArgs tc = (tc.function.name, args) := by
      simp [invD, argsD, hp]
    simp only [processToolCalls, hp, hl, hc]
    rw [ih _ _ hrest]
    simp [h1, h2]

theorem processToolCalls_keyError_mid (parseArgs : String → Option String)
    (tools : List (String × ToolEntry)) :
    ∀ (pre : List ToolCall) (bad : ToolCall) (rest : List ToolCall)
      (ms : List Message) (invs : List (String × String)),
    (∀ tc ∈ pre, callOk parseArgs tools tc) →
    (∃ a, parseArgs bad.function.arguments = some a) →
    dictLookup bad.function.name tools = none →
    processToolCalls parseArgs tools (pre ++ bad :: rest) ms invs =
      (ms ++ pre.map (toolMsgD parseArgs tools),
       invs ++ pre.map (invD parseArgs),
       some (AgentError.keyError bad.function.name)) := by
  intro pre
  induction pre with
  | nil =>
    intro bad rest ms invs _ hargs hbad
    obtain ⟨a, ha⟩ := hargs
    simp [processToolCalls, ha, hbad]
  | cons tc pre ih =>
    intro bad rest ms invs h hargs hbad
    obtain ⟨args, entry, result, hp, hl, hc⟩ := h tc (List.mem_cons_self _ _)
    have hpre : ∀ x ∈ pre, callOk parseArgs tools x :=
      fun x hx => h x (List.mem_cons_of_mem _ hx)
    have h1 : toolMsgD parseArgs tools tc = toolMessage tc result := by
      simp [toolMsgD, toolResultD, hp, hl, hc, Except.toOption]
    have h2 : invD parseArgs tc = (tc.function.name, args) := by
      simp [invD, argsD, hp]
    simp only [List.cons_append, processToolCalls, hp, hl, hc, List.append_eq]
    rw [ih bad rest _ _ hpre hargs hbad]
    simp [h1, h2]

theorem processToolCalls_extends (parseArgs : String → Option String)
    (tools : List (String × ToolEntry)) :
    ∀ (tcs : List ToolCall) (ms : List Message) (invs : List (String × String)),
    ∃ rest, (processToolCalls parseArgs tools tcs ms invs).1 = ms ++ rest := by
  intro tcs
  induction tcs with
  | nil => intro ms invs; exact ⟨[], by simp [processToolCalls]⟩
  | cons tc rest ih =>
    intro ms invs
    cases hp : parseArgs tc.function.arguments with
    | none => exact ⟨[], by simp [processToolCalls, hp]⟩
    | some args =>
      cases hl : dictLookup tc.function.name tools with
      | none => exact ⟨[], by simp [processToolCalls, hp, hl]⟩
      | some entry =>
        cases hc : entry.callable args with
        | error e => exact ⟨[], by simp [processToolCalls, hp, hl, hc]⟩
        | ok result =>
          obtain ⟨r, hr⟩ := ih (ms ++ [toolMessage tc result])
            (invs ++ [(tc.function.name, args)])
          refine ⟨toolMessage tc result :: r, ?_⟩
          simp only [processToolCalls, hp, hl, hc]
          rw [hr]
          simp

theorem agent_loop_direct_eq (complete : ChatRequest → CompletionResponse)
    (parseArgs : String → Option String) (query : String)
    (tools : List (String × ToolEntry)) (messages : Option (List Message))
    (h1 : (complete (firstRequest query tools messages)).tool_calls = none)
    (h2 : (complete (firstRequest query tools messages)).finish_reason = "stop") :
    agent_loop complete parseArgs query tools messages =
      ⟨initialTranscript query tools messages ++
         [finalAssistantMessage
           (complete (firstRequest query tools messages)).content],
       [firstRequest query tools messages], [],
       Except.ok (complete (firstRequest query tools messages)).content⟩ := by
  simp only [agent_loop, h1, h2]
  simp

theorem agent_loop_tools_eq (complete : ChatRequest → CompletionResponse)
    (parseArgs : String → Option String) (query : String)
    (tools : List (String × ToolEntry)) (messages : Option (List Message))
    (tcs : List ToolCall)
    (h1 : (complete (firstRequest query tools messages)).tool_calls = some tcs)
    (hok : ∀ tc ∈ tcs, callOk parseArgs tools tc) :
    agent_loop complete parseArgs query tools messages =
      ⟨extendedTranscript complete parseArgs query tools messages tcs ++
         [finalAssistantMessage (complete (followupRequest
           (extendedTranscript complete parseArgs query tools messages tcs))).content],
       [firstRequest query tools messages,
        followupRequest (extendedTranscript complete parseArgs query tools messages tcs)],
       tcs.map (invD parseArgs),
       Except.ok (complete (followupRequest
         (extendedTranscript complete parseArgs query tools messages tcs))).content⟩ := by
  simp only [agent_loop, h1]
  rw [processToolCalls_all_ok parseArgs tools tcs _ [] hok]
  simp [extendedTranscript]

theorem agent_loop_calls_head (complete : ChatRequest → CompletionResponse)
    (parseArgs : String → Option String) (query : String)
    (tools : List (String × ToolEntry)) (messages : Option (List Message)) :
    ∃ rest, (agent_loop complete parseArgs query tools messages).calls =
      firstRequest query tools messages :: rest ∧
      ∀ c ∈ rest, c.temperature = none ∧ c.max_tokens = none ∧ c.tools = none := by
  simp only [agent_loop]
  cases h1 : (complete (firstRequest query tools messages)).tool_calls with
  | some tcs =>
    rcases hpt : processToolCalls parseArgs tools tcs
        (initialTranscript query tools messages ++
          [assistantToolMessage
            (complete (firstRequest query tools messages)).content (some tcs)]) []
      with ⟨ms3, invs, err⟩
    cases err with
    | some e => exact ⟨[], by simp [hpt]⟩
    | none =>
      refine ⟨[followupRequest ms3], by simp [hpt], ?_⟩
      intro c hc
      rw [List.mem_singleton] at hc
      subst hc
      exact ⟨rfl, rfl, rfl⟩
  | none =>
    by_cases h2 : (complete (firstRequest query tools messages)).finish_reason = "tool_calls"
    · exact ⟨[], by simp [h2]⟩
    · by_cases h3 : (complete (firstRequest query tools messages)).finish_reason = "stop"
      · exact ⟨[], by simp [h2, h3]⟩
      · exact ⟨[], by simp [h2, h3]⟩

theorem build_tools_cons (call_tool : String → String → Except String String)
    (u : RawTool) (rest : List RawTool) :
    build_tools call_tool (u :: rest) =
      (if u.name = "list_tables" then build_tools call_tool rest
       else (u.name,
         ⟨u.name, call_tool u.name,
          ⟨"function", ⟨u.name, u.description, u.inputSchema⟩⟩⟩) ::
         build_tools call_tool rest) := by
  by_cases h : u.name = "list_tables" <;>
    simp [build_tools, List.filter_cons, h]

theorem dictLookup_build_tools (call_tool : String → String → Except String String) :
    ∀ (mcp_tools : List RawTool), (mcp_tools.map RawTool.name).Nodup →
    ∀ t ∈ mcp_tools, t.name ≠ "list_tables" →
    dictLookup t.name (build_tools call_tool mcp_tools) =
      some ⟨t.name, call_tool t.name,
            ⟨"function", ⟨t.name, t.description, t.inputSchema⟩⟩⟩ := by
  intro mcp_tools
  induction mcp_tools with
  | nil => intro _ t ht; exact absurd ht (List.not_mem_nil t)
  | cons u rest ih =>
    intro hnd t ht hne
    rw [List.map_cons, List.nodup_cons] at hnd
    obtain ⟨hu, hrest⟩ := hnd
    rcases List.mem_cons.mp ht with rfl | ht2
    · rw [build_tools_cons, if_neg hne]
      simp [dictLookup]
    · have htn : t.name ∈ rest.map RawTool.name := List.mem_map_of_mem _ ht2
      have hneq : t.name ≠ u.name := fun he => hu (he ▸ htn)
      rw [build_tools_cons]
      by_cases hu2 : u.name = "list_tables"
      · rw [if_pos hu2]
        exact ih hrest t ht2 hne
      · rw [if_neg hu2]
        simp only [dictLookup, if_neg hneq]
        exact ih hrest t ht2 hne

theorem wTc_callOk : ∀ tc ∈ [wTc], callOk wParse wTools tc := by
  intro tc htc
  rw [List.mem_singleton] at htc
  subst htc
  exact ⟨"rowargs", wEntry, "1 row inserted", rfl, rfl, rfl⟩

/-- C1: when the first completion response carries n ≥ 1 ToolCalls, all of
which can be processed, `agent_loop` invokes the catalog callables exactly
once per ToolCall, strictly in the order the ToolCalls appear in the
response (the sequential invocation log equals the ToolCall list mapped to
its name/arguments pairs), and appends exactly one tool Message per
ToolCall to the transcript, contiguously and in that same order right after
the assistant Message, each tool Message carrying `tool_call_id` equal to
its originating ToolCall's id and `name` equal to that ToolCall's tool
name. -/
theorem C1_tool_dispatch_order (complete : ChatRequest → CompletionResponse)
    (parseArgs : String → Option String) (query : String)
    (tools : List (String × ToolEntry)) (messages : Option (List Message))
    (tcs : List ToolCall) (hn : 1 ≤ tcs.length)
    (hresp : (complete (firstRequest query tools messages)).tool_calls = some tcs)
    (hok : ∀ tc ∈ tcs, callOk parseArgs tools tc) :
    (agent_loop complete parseArgs query tools messages).invocations =
        tcs.map (invD parseArgs) ∧
    (∃ suffix, (agent_loop complete parseArgs query tools messages).messages =
        initialTranscript query tools messages ++
        assistantToolMessage
          (complete (firstRequest query tools messages)).content (some tcs) ::
        (tcs.map (toolMsgD parseArgs tools) ++ suffix)) ∧
    List.Forall₂ (fun tc m => m.role = "tool" ∧ m.tool_call_id = some tc.id ∧
        m.name = some tc.function.name)
      tcs (tcs.map (toolMsgD parseArgs tools)) := by
  rw [agent_loop_tools_eq complete parseArgs query tools messages tcs hresp hok]
  refine ⟨rfl, ?_, ?_⟩
  · refine ⟨[finalAssistantMessage (complete (followupRequest
      (extendedTranscript complete parseArgs query tools messages tcs))).content], ?_⟩
    simp [extendedTranscript]
  · rw [List.forall₂_map_right_iff]
    rw [List.forall₂_same]
    intro tc _
    exact ⟨rfl, rfl, rfl⟩

/-- C1 witness: a concrete run with one ToolCall. -/
theorem C1_witness :
    (1 ≤ ([wTc] : List ToolCall).length) ∧
    ((wCompleteTools (firstRequest "add a row" wTools none)).tool_calls =
      some [wTc]) ∧
    ((agent_loop wCompleteTools wParse "add a row" wTools none).invocations =
        [wTc].map (invD wParse) ∧
     (∃ suffix, (agent_loop wCompleteTools wParse "add a row" wTools none).messages =
        initialTranscript "add a row" wTools none ++
        assistantToolMessage
          (wCompleteTools (firstRequest "add a row" wTools none)).content (some [wTc]) ::
        ([wTc].map (toolMsgD wParse wTools) ++ suffix)) ∧
     List.Forall₂ (fun tc m => m.role = "tool" ∧ m.tool_call_id = some tc.id ∧
        m.name = some tc.function.name)
       [wTc] ([wTc].map (toolMsgD wParse wTools))) :=
  ⟨by decide, rfl,
   C1_tool_dispatch_order wCompleteTools wParse "add a row" wTools none [wTc]
     (by decide) rfl wTc_callOk⟩

/-- C2: when the first completion response carries n ≥ 1 ToolCalls, all of
which can be processed, `agent_loop` issues exactly one additional
completion-service call after all n invocations have completed, and that
follow-up call carries the extended transcript (assistant Message followed
by all n tool Messages) and no tool schemas. -/
theorem C2_single_followup_call (complete : ChatRequest → CompletionResponse)
    (parseArgs : String → Option String) (query : String)
    (tools : List (String × ToolEntry)) (messages : Option (List Message))
    (tcs : List ToolCall) (hn : 1 ≤ tcs.length)
    (hresp : (complete (firstRequest query tools messages)).tool_calls = some tcs)
    (hok : ∀ tc ∈ tcs, callOk parseArgs tools tc) :
    (agent_loop complete parseArgs query tools messages).calls =
      [firstRequest query tools messages,
       followupRequest (extendedTranscript complete parseArgs query tools messages tcs)] ∧
    (followupRequest (extendedTranscript complete parseArgs query tools messages tcs)).tools
      = none ∧
    (followupRequest (extendedTranscript complete parseArgs query tools messages tcs)).messages
      = initialTranscript query tools messages ++
        assistantToolMessage
          (complete (firstRequest query tools messages)).content (some tcs) ::
        tcs.map (toolMsgD parseArgs tools) ∧
    (agent_loop complete parseArgs query tools messages).invocations =
      tcs.map (invD parseArgs) := by
  rw [agent_loop_tools_eq complete parseArgs query tools messages tcs hresp hok]
  exact ⟨rfl, rfl, rfl, rfl⟩

/-- C2 witness: a concrete run with one ToolCall. -/
theorem C2_witness :
    (1 ≤ ([wTc] : List ToolCall).length) ∧
    ((wCompleteTools (firstRequest "add a row" wTools none)).tool_calls =
      some [wTc]) ∧
    ((agent_loop wCompleteTools wParse "add a row" wTools none).calls =
      [firstRequest "add a row" wTools none,
       followupRequest (extendedTranscript wCompleteTools wParse "add a row" wTools none [wTc])] ∧
     (followupRequest (extendedTranscript wCompleteTools wParse "add a row" wTools none [wTc])).tools
       = none ∧
     (followupRequest (extendedTranscript wCompleteTools wParse "add a row" wTools none [wTc])).messages
       = initialTranscript "add a row" wTools none ++
         assistantToolMessage
           (wCompleteTools (firstRequest "add a row" wTools none)).content (some [wTc]) ::
         [wTc].map (toolMsgD wParse wTools) ∧
     (agent_loop wCompleteTools wParse "add a row" wTools none).invocations =
       [wTc].map (invD wParse)) :=
  ⟨by decide, rfl,
   C2_single_followup_call wCompleteTools wParse "add a row" wTools none [wTc]
     (by decide) rfl wTc_callOk⟩

/-- C3: when the first completion response has `finish_reason = "stop"` and
its `tool_calls` field is absent, `agent_loop` performs no tool invocation
and no second completion-service call, and the returned answer is exactly
the first response's content. -/
theorem C3_direct_answer (complete : ChatRequest → CompletionResponse)
    (parseArgs : String → Option String) (query : String)
    (tools : List (String × ToolEntry)) (messages : Option (List Message))
    (h1 : (complete (firstRequest query tools messages)).tool_calls = none)
    (h2 : (complete (firstRequest query tools messages)).finish_reason = "stop") :
    (agent_loop complete parseArgs query tools messages).invocations = [] ∧
    (agent_loop complete parseArgs query tools messages).calls =
      [firstRequest query tools messages] ∧
    (agent_loop complete parseArgs query tools messages).outcome =
      Except.ok (complete (firstRequest query tools messages)).content := by
  rw [agent_loop_direct_eq complete parseArgs query tools messages h1 h2]
  exact ⟨rfl, rfl, rfl⟩

/-- C3 witness: a concrete direct-answer run. -/
theorem C3_witness :
    ((wCompleteStop (firstRequest "hi" wTools none)).tool_calls = none) ∧
    ((wCompleteStop (firstRequest "hi" wTools none)).finish_reason = "stop") ∧
    ((agent_loop wCompleteStop wParse "hi" wTools none).invocations = [] ∧
     (agent_loop wCompleteStop wParse "hi" wTools none).calls =
       [firstRequest "hi" wTools none] ∧
     (agent_loop wCompleteStop wParse "hi" wTools none).outcome =
       Except.ok (wCompleteStop (firstRequest "hi" wTools none)).content) :=
  ⟨rfl, rfl, C3_direct_answer wCompleteStop wParse "hi" wTools none rfl rfl⟩

/-- C4: whenever `agent_loop` is given an existing transcript and returns
normally, the input transcript is a strict prefix of the returned one: the
result is the input followed by a non-empty block of appended Messages, so
no existing Message is reordered, removed or modified. -/
theorem C4_transcript_strict_prefix (complete : ChatRequest → CompletionResponse)
    (parseArgs : String → Option String) (query : String)
    (tools : List (String × ToolEntry)) (ms : List Message)
    (hret : ∃ a, (agent_loop complete parseArgs query tools (some ms)).outcome =
      Except.ok a) :
    ∃ rest, rest ≠ [] ∧
      (agent_loop complete parseArgs query tools (some ms)).messages =
        ms ++ rest := by
  obtain ⟨a, ha⟩ := hret
  simp only [agent_loop] at ha ⊢
  cases h1 : (complete (firstRequest query tools (some ms))).tool_calls with
  | some tcs =>
    simp only [h1] at ha ⊢
    rcases hpt : processToolCalls parseArgs tools tcs
        (initialTranscript query tools (some ms) ++
          [assistantToolMessage
            (complete (firstRequest query tools (some ms))).content (some tcs)]) []
      with ⟨ms3, invs, err⟩
    simp only [hpt] at ha ⊢
    cases err with
    | some e => simp at ha
    | none =>
      obtain ⟨r, hr⟩ := processToolCalls_extends parseArgs tools tcs
        (initialTranscript query tools (some ms) ++
          [assistantToolMessage
            (complete (firstRequest query tools (some ms))).content (some tcs)]) []
      rw [hpt] at hr
      simp only at hr
      refine ⟨userMessage query ::
        assistantToolMessage
          (complete (firstRequest query tools (some ms))).content (some tcs) ::
        (r ++ [finalAssistantMessage (complete (followupRequest ms3)).content]), by simp, ?_⟩
      rw [hr]
      simp [initialTranscript]
  | none =>
    simp only [h1] at ha ⊢
    by_cases h2 : (complete (firstRequest query tools (some ms))).finish_reason = "tool_calls"
    · simp [h2] at ha
    · by_cases h3 : (complete (firstRequest query tools (some ms))).finish_reason = "stop"
      · refine ⟨[userMessage query,
          finalAssistantMessage (complete (firstRequest query tools (some ms))).content],
          by simp, ?_⟩
        simp [h2, h3, initialTranscript]
      · simp [h2, h3] at ha

/-- C4 witness: a concrete direct-answer run over an existing transcript. -/
theorem C4_witness :
    (∃ a, (agent_loop wCompleteStop wParse "hi" wTools
        (some [systemMessage wTools])).outcome = Except.ok a) ∧
    (∃ rest, rest ≠ [] ∧
      (agent_loop wCompleteStop wParse "hi" wTools
        (some [systemMessage wTools])).messages =
      [systemMessage wTools] ++ rest) :=
  ⟨⟨some "hello there", rfl⟩,
   C4_transcript_strict_prefix wCompleteStop wParse "hi" wTools
     [systemMessage wTools] ⟨some "hello there", rfl⟩⟩

/-- C5 counterexample: the claim that every completion-service call uses
temperature zero and a fixed max-token ceiling is false: in a run whose
first response requests a tool, the follow-up call is issued with neither
a temperature nor a max_tokens bound. -/
theorem C5_counterexample :
    ¬ ∀ c ∈ (agent_loop wCompleteTools wParse "add a row" wTools none).calls,
        c.temperature = some 0 ∧ c.max_tokens = some 4096 := by
  intro h
  have hc : (agent_loop wCompleteTools wParse "add a row" wTools none).calls =
      [firstRequest "add a row" wTools none,
       followupRequest (extendedTranscript wCompleteTools wParse "add a row" wTools none [wTc])] :=
    (agent_loop_tools_eq wCompleteTools wParse "add a row" wTools none [wTc]
      rfl wTc_callOk) ▸ rfl
  have h2 := h (followupRequest
      (extendedTranscript wCompleteTools wParse "add a row" wTools none [wTc]))
    (by rw [hc]; exact List.mem_cons_of_mem _ (List.mem_cons_self _ _))
  simp [followupRequest] at h2

/-- C5 (amended): the first completion-service call of each turn uses
temperature 0 and a max-token ceiling of 4096; the follow-up call issued
after tool invocations passes neither a temperature nor a max-token
bound. -/
theorem C5_amended_call_parameters (complete : ChatRequest → CompletionResponse)
    (parseArgs : String → Option String) (query : String)
    (tools : List (String × ToolEntry)) (messages : Option (List Message)) :
    ∃ rest, (agent_loop complete parseArgs query tools messages).calls =
        firstRequest query tools messages :: rest ∧
      (firstRequest query tools messages).temperature = some 0 ∧
      (firstRequest query tools messages).max_tokens = some 4096 ∧
      ∀ c ∈ rest, c.temperature = none ∧ c.max_tokens = none := by
  obtain ⟨rest, hrest, hprop⟩ :=
    agent_loop_calls_head complete parseArgs query tools messages
  exact ⟨rest, hrest, rfl, rfl, fun c hc => ⟨(hprop c hc).1, (hprop c hc).2.1⟩⟩

/-- C6: `agent_loop` classifies the first response by precedence: a present
`tool_calls` field makes it tool-requesting (the assistant Message carrying
the ToolCalls is appended); with no ToolCalls and `finish_reason = "stop"`
the response is a direct answer (its content is returned, with no tool
invocation and no second call); with no ToolCalls and any other
finish_reason the loop raises the unrecoverable unknown-stop-reason error
instead of returning an answer. -/
theorem C6_response_classification (complete : ChatRequest → CompletionResponse)
    (parseArgs : String → Option String) (query : String)
    (tools : List (String × ToolEntry)) (messages : Option (List Message)) :
    (∀ tcs, (complete (firstRequest query tools messages)).tool_calls = some tcs →
      ∃ rest, (agent_loop complete parseArgs query tools messages).messages =
        initialTranscript query tools messages ++
        assistantToolMessage
          (complete (firstRequest query tools messages)).content (some tcs) :: rest) ∧
    ((complete (firstRequest query tools messages)).tool_calls = none →
     (complete (firstRequest query tools messages)).finish_reason = "stop" →
      (agent_loop complete parseArgs query tools messages).outcome =
        Except.ok (complete (firstRequest query tools messages)).content ∧
      (agent_loop complete parseArgs query tools messages).calls =
        [firstRequest query tools messages] ∧
      (agent_loop complete parseArgs query tools messages).invocations = []) ∧
    ((complete (firstRequest query tools messages)).tool_calls = none →
     (complete (firstRequest query tools messages)).finish_reason ≠ "stop" →
     (complete (firstRequest query tools messages)).finish_reason ≠ "tool_calls" →
      (agent_loop complete parseArgs query tools messages).outcome =
        Except.error (AgentError.unknownStopReason
          (complete (firstRequest query tools messages)).finish_reason)) := by
  refine ⟨?_, ?_, ?_⟩
  · intro tcs h1
    simp only [agent_loop, h1]
    rcases hpt : processToolCalls parseArgs tools tcs
        (initialTranscript query tools messages ++
          [assistantToolMessage
            (complete (firstRequest query tools messages)).content (some tcs)]) []
      with ⟨ms3, invs, err⟩
    obtain ⟨r, hr⟩ := processToolCalls_extends parseArgs tools tcs
      (initialTranscript query tools messages ++
        [assistantToolMessage
          (complete (firstRequest query tools messages)).content (some tcs)]) []
    rw [hpt] at hr
    simp only at hr
    cases err with
    | some e =>
      refine ⟨r, ?_⟩
      simp only [hpt]
      rw [hr]
      simp
    | none =>
      refine ⟨r ++ [finalAssistantMessage (complete (followupRequest ms3)).content], ?_⟩
      simp only [hpt]
      rw [hr]
      simp
  · intro h1 h2
    rw [agent_loop_direct_eq complete parseArgs query tools messages h1 h2]
    exact ⟨rfl, rfl, rfl⟩
  · intro h1 h2 h3
    simp only [agent_loop, h1]
    simp [h2, h3]

/-- C6 witness: a concrete direct-answer classification. -/
theorem C6_witness :
    ((wCompleteStop (firstRequest "hi" wTools none)).tool_calls = none) ∧
    ((wCompleteStop (firstRequest "hi" wTools none)).finish_reason = "stop") ∧
    ((agent_loop wCompleteStop wParse "hi" wTools none).outcome =
       Except.ok (wCompleteStop (firstRequest "hi" wTools none)).content ∧
     (agent_loop wCompleteStop wParse "hi" wTools none).calls =
       [firstRequest "hi" wTools none] ∧
     (agent_loop wCompleteStop wParse "hi" wTools none).invocations = []) :=
  ⟨rfl, rfl,
   (C6_response_classification wCompleteStop wParse "hi" wTools none).2.1 rfl rfl⟩

/-- C7: the catalog built from the advertised operations never contains the
denylisted name `list_tables` as a key; and (when the advertised names are
distinct, as MCP guarantees) every non-denylisted operation appears exactly
once, keyed by its name and mapped to the entry whose schema fragment is
`{type: "function", function: {name, description, parameters}}` built from
that operation. -/
theorem C7_catalog_denylist_and_shape
    (call_tool : String → String → Except String String)
    (mcp_tools : List RawTool) :
    (∀ p ∈ build_tools call_tool mcp_tools, p.1 ≠ "list_tables") ∧
    ((mcp_tools.map RawTool.name).Nodup →
      ∀ t ∈ mcp_tools, t.name ≠ "list_tables" →
        ((build_tools call_tool mcp_tools).map Prod.fst).count t.name = 1 ∧
        dictLookup t.name (build_tools call_tool mcp_tools) =
          some ⟨t.name, call_tool t.name,
                ⟨"function", ⟨t.name, t.description, t.inputSchema⟩⟩⟩) := by
  have hkeys : (build_tools call_tool mcp_tools).map Prod.fst =
      (mcp_tools.filter (fun t => t.name != "list_tables")).map RawTool.name := by
    unfold build_tools
    rw [List.map_map]
    rfl
  constructor
  · intro p hp
    simp only [build_tools, List.mem_map, List.mem_filter] at hp
    obtain ⟨t, ⟨_, ht⟩, rfl⟩ := hp
    simpa [bne_iff_ne] using ht
  · intro hnd t ht hne
    constructor
    · rw [hkeys]
      have hsub : ((mcp_tools.filter (fun t => t.name != "list_tables")).map
          RawTool.name).Sublist (mcp_tools.map RawTool.name) :=
        (List.filter_sublist mcp_tools).map RawTool.name
      have hkeysnd := List.Nodup.sublist hsub hnd
      have hmemf : t ∈ mcp_tools.filter (fun t => t.name != "list_tables") :=
        List.mem_filter.mpr ⟨ht, by simpa [bne_iff_ne] using hne⟩
      exact List.count_eq_one_of_mem hkeysnd (List.mem_map_of_mem _ hmemf)
    · exact dictLookup_build_tools call_tool mcp_tools hnd t ht hne

/-- C7 witness: a concrete operation list containing the denylisted name. -/
theorem C7_witness :
    ((wRawTools.map RawTool.name).Nodup) ∧
    (wRaw2 ∈ wRawTools ∧ wRaw2.name ≠ "list_tables") ∧
    (∀ p ∈ build_tools wCallTool wRawTools, p.1 ≠ "list_tables") ∧
    (((build_tools wCallTool wRawTools).map Prod.fst).count wRaw2.name = 1 ∧
     dictLookup wRaw2.name (build_tools wCallTool wRawTools) =
       some ⟨wRaw2.name, wCallTool wRaw2.name,
             ⟨"function", ⟨wRaw2.name, wRaw2.description, wRaw2.inputSchema⟩⟩⟩) :=
  ⟨by decide, ⟨by decide, by decide⟩,
   (C7_catalog_denylist_and_shape wCallTool wRawTools).1,
   (C7_catalog_denylist_and_shape wCallTool wRawTools).2 (by decide) wRaw2
     (by decide) (by decide)⟩

/-- C8: when no transcript is supplied, the transcript is seeded with
exactly one system Message whose content is the instruction template with
`{tools}` replaced by the catalog enumeration — one entry per catalog tool,
in catalog iteration order, each consisting of the tool's name and
description, joined by the line separator — followed by the user query as a
user Message, and the first completion-service call is issued with exactly
these two Messages. -/
theorem C8_seeded_transcript (complete : ChatRequest → CompletionResponse)
    (parseArgs : String → Option String) (query : String)
    (tools : List (String × ToolEntry)) :
    (∃ c rest, (agent_loop complete parseArgs query tools none).calls = c :: rest ∧
      c.messages = [systemMessage tools, userMessage query]) ∧
    (systemMessage tools).content =
      some (SYSTEM_PROMPT.replace "{tools}"
        (String.intercalate "\n- " ((tools.map Prod.snd).map toolLine))) ∧
    ((tools.map Prod.snd).map toolLine).length = tools.length ∧
    List.Forall₂ (fun p line =>
        line = p.2.name ++ ": " ++ p.2.schema.function.description)
      tools ((tools.map Prod.snd).map toolLine) := by
  refine ⟨?_, rfl, by simp, ?_⟩
  · obtain ⟨rest, hrest, _⟩ := agent_loop_calls_head complete parseArgs query tools none
    refine ⟨firstRequest query tools none, rest, hrest, ?_⟩
    simp [firstRequest, initialTranscript]
  · rw [List.map_map, List.forall₂_map_right_iff, List.forall₂_same]
    intro p _
    rfl

/-- C9: an invocation of the tool bridge (or of tool discovery) before a
session has been established fails with the not-connected error instead of
forwarding the call. -/
theorem C9_bridge_requires_connection (c : MCPClient) (tool_name : String)
    (h : c.session = none) :
    MCPClient.call_tool c tool_name =
      Except.error "Not connected to MCP server" ∧
    MCPClient.get_available_tools c =
      Except.error "Not connected to MCP server" := by
  constructor <;> simp [MCPClient.call_tool, MCPClient.get_available_tools, h]

/-- C9 witness: a freshly constructed client with no session. -/
theorem C9_witness :
    (MCPClient.mk none).session = none ∧
    (MCPClient.call_tool (MCPClient.mk none) "read_query" =
       Except.error "Not connected to MCP server" ∧
     MCPClient.get_available_tools (MCPClient.mk none) =
       Except.error "Not connected to MCP server") :=
  ⟨rfl, C9_bridge_requires_connection (MCPClient.mk none) "read_query" rfl⟩

/-- C10: when the first response's ToolCall list contains a ToolCall whose
name is not a catalog key (all earlier ToolCalls being processable and the
offending ToolCall's arguments parsing), the turn fails with the lookup
(KeyError) error at that ToolCall: no tool Message is appended for it, no
follow-up completion call is made, and the assistant Message plus the tool
Messages of all earlier ToolCalls remain appended to the transcript. -/
theorem C10_unknown_tool_aborts_turn (complete : ChatRequest → CompletionResponse)
    (parseArgs : String → Option String) (query : String)
    (tools : List (String × ToolEntry)) (messages : Option (List Message))
    (pre : List ToolCall) (bad : ToolCall) (rest : List ToolCall)
    (hresp : (complete (firstRequest query tools messages)).tool_calls =
        some (pre ++ bad :: rest))
    (hpre : ∀ tc ∈ pre, callOk parseArgs tools tc)
    (hbadargs : ∃ a, parseArgs bad.function.arguments = some a)
    (hbad : dictLookup bad.function.name tools = none) :
    (agent_loop complete parseArgs query tools messages).outcome =
      Except.error (AgentError.keyError bad.function.name) ∧
    (agent_loop complete parseArgs query tools messages).calls =
      [firstRequest query tools messages] ∧
    (agent_loop complete parseArgs query tools messages).messages =
      initialTranscript query tools messages ++
      assistantToolMessage (complete (firstRequest query tools messages)).content
        (some (pre ++ bad :: rest)) ::
      pre.map (toolMsgD parseArgs tools) ∧
    (agent_loop complete parseArgs query tools messages).invocations =
      pre.map (invD parseArgs) := by
  simp only [agent_loop, hresp]
  rw [processToolCalls_keyError_mid parseArgs tools pre bad rest _ [] hpre
    hbadargs hbad]
  simp

/-- C10 witness: a concrete run with one known then one unknown ToolCall. -/
theorem C10_witness :
    ((wCompleteBad (firstRequest "drop it" wTools none)).tool_calls =
      some ([wTc] ++ wTcBad :: [])) ∧
    (dictLookup wTcBad.function.name wTools = none) ∧
    ((agent_loop wCompleteBad wParse "drop it" wTools none).outcome =
       Except.error (AgentError.keyError wTcBad.function.name) ∧
     (agent_loop wCompleteBad wParse "drop it" wTools none).calls =
       [firstRequest "drop it" wTools none] ∧
     (agent_loop wCompleteBad wParse "drop it" wTools none).messages =
       initialTranscript "drop it" wTools none ++
       assistantToolMessage
         (wCompleteBad (firstRequest "drop it" wTools none)).content
         (some ([wTc] ++ wTcBad :: [])) ::
       [wTc].map (toolMsgD wParse wTools) ∧
     (agent_loop wCompleteBad wParse "drop it" wTools none).invocations =
       [wTc].map (invD wParse)) :=
  ⟨rfl, rfl,
   C10_unknown_tool_aborts_turn wCompleteBad wParse "drop it" wTools none
     [wTc] wTcBad [] rfl wTc_callOk ⟨"dropargs", rfl⟩ rfl⟩

end Agent
